import Mathlib

/-!
# Verification of `restricted-rolling-file-appender` (`src/appenders.rs`)

Shallow embedding of the daily rolling file appender:

* filenames are Lean `String`s; Rust's `String` ordering (byte-wise
  lexicographic on UTF-8, which coincides with code-point lexicographic
  order) is embedded as `lexLe` / `lexLt` on `String.data`;
* the clock is explicit: `today()`'s midnight unix timestamp is passed as a
  `Nat` argument (`OffsetDateTime` keeps the timestamp together with the
  calendar fields used for filename generation);
* filesystem effects are explicit: directory listings become `List String`
  of entry names, open/create/delete outcomes are oracle inputs
  (`FsOutcome`, `Except` values), and a Rust panic is `Option.none`;
* `usize` arithmetic that can underflow is modelled with an explicit wrap
  modulo `2 ^ 64` (`wsub`), matching release-mode semantics; in the places
  where the wrapped index exceeds the vector length the Rust code panics
  when slicing (and debug mode already panics at the subtraction), which
  the embedding returns as `none`.
-/

namespace Appenders

/-! ## Lexicographic order on filenames (Rust `String` `Ord`) -/

/-- Lexicographic `≤` on character lists (byte order of UTF-8 equals
code-point order), as Rust's `String` ordering compares filenames in
`Vec::sort`. -/
def lexLe : List Char → List Char → Bool
  | [], _ => true
  | _ :: _, [] => false
  | a :: as, b :: bs =>
    if a.toNat < b.toNat then true
    else if b.toNat < a.toNat then false
    else lexLe as bs

/-- Strict lexicographic `<` on character lists. -/
def lexLt : List Char → List Char → Bool
  | [], [] => false
  | [], _ :: _ => true
  | _ :: _, [] => false
  | a :: as, b :: bs =>
    if a.toNat < b.toNat then true
    else if b.toNat < a.toNat then false
    else lexLt as bs

/-- The filename order used when `remove_old_files` sorts the `targets`
vector (`targets.sort()`). -/
def nameLe (a b : String) : Prop := lexLe a.data b.data = true

/-- Strict version of `nameLe`: filename `a` is strictly lexicographically
(hence, for the fixed-width date encoding, chronologically) before `b`. -/
def nameLt (a b : String) : Prop := lexLt a.data b.data = true

instance : DecidableRel nameLe := fun a b => by unfold nameLe; infer_instance

instance : DecidableRel nameLt := fun a b => by unfold nameLt; infer_instance

theorem lexLe_total (a b : List Char) : lexLe a b = true ∨ lexLe b a = true := by
  induction a generalizing b with
  | nil => exact Or.inl rfl
  | cons x xs ih =>
    cases b with
    | nil => exact Or.inr rfl
    | cons y ys =>
      simp only [lexLe]
      rcases Nat.lt_trichotomy x.toNat y.toNat with h | h | h
      · simp [h]
      · have h1 : ¬ x.toNat < y.toNat := by omega
        have h2 : ¬ y.toNat < x.toNat := by omega
        simp only [h1, h2, if_false]
        exact ih ys
      · simp [h, Nat.lt_asymm h]

theorem lexLe_trans (a b c : List Char) (h₁ : lexLe a b = true)
    (h₂ : lexLe b c = true) : lexLe a c = true := by
  induction a generalizing b c with
  | nil => rfl
  | cons x xs ih =>
    cases b with
    | nil => simp [lexLe] at h₁
    | cons y ys =>
      cases c with
      | nil => simp [lexLe] at h₂
      | cons z zs =>
        simp only [lexLe] at h₁ h₂ ⊢
        rcases Nat.lt_trichotomy x.toNat y.toNat with hxy | hxy | hxy <;>
          rcases Nat.lt_trichotomy y.toNat z.toNat with hyz | hyz | hyz
        · simp [show x.toNat < z.toNat by omega]
        · simp [show x.toNat < z.toNat by omega]
        · simp [hyz, Nat.lt_asymm hyz] at h₂
        · simp [show x.toNat < z.toNat by omega]
        · have h1 : ¬ x.toNat < z.toNat := by omega
          have h2 : ¬ z.toNat < x.toNat := by omega
          simp only [h1, h2, if_false] at h₁ h₂ ⊢
          simp only [show ¬ x.toNat < y.toNat by omega,
            show ¬ y.toNat < x.toNat by omega, if_false] at h₁
          simp only [show ¬ y.toNat < z.toNat by omega,
            show ¬ z.toNat < y.toNat by omega, if_false] at h₂
          exact ih ys zs h₁ h₂
        · simp [hyz, Nat.lt_asymm hyz] at h₂
        · simp [hxy, Nat.lt_asymm hxy] at h₁
        · simp [hxy, Nat.lt_asymm hxy] at h₁
        · simp [hxy, Nat.lt_asymm hxy] at h₁

theorem char_eq_of_toNat_eq {a b : Char} (h : a.toNat = b.toNat) : a = b := by
  apply Char.ext
  exact UInt32.toNat.inj h

theorem lexLt_of_lexLe_of_ne (a b : List Char) (h : lexLe a b = true)
    (hne : a ≠ b) : lexLt a b = true := by
  induction a generalizing b with
  | nil =>
    cases b with
    | nil => exact absurd rfl hne
    | cons y ys => rfl
  | cons x xs ih =>
    cases b with
    | nil => simp [lexLe] at h
    | cons y ys =>
      simp only [lexLe] at h
      simp only [lexLt]
      rcases Nat.lt_trichotomy x.toNat y.toNat with hxy | hxy | hxy
      · simp [hxy]
      · have h1 : ¬ x.toNat < y.toNat := by omega
        have h2 : ¬ y.toNat < x.toNat := by omega
        simp only [h1, h2, if_false] at h ⊢
        have hxy' : x = y := char_eq_of_toNat_eq hxy
        subst hxy'
        refine ih ys h (fun hd => hne ?_)
        rw [hd]
      · simp [hxy, Nat.lt_asymm hxy] at h

theorem nameLt_of_nameLe_of_ne {a b : String} (h : nameLe a b) (hne : a ≠ b) :
    nameLt a b :=
  lexLt_of_lexLe_of_ne a.data b.data h
    (fun hd => hne (congrArg String.mk hd))

instance : IsTotal String nameLe := ⟨fun a b => lexLe_total a.data b.data⟩

instance : IsTrans String nameLe :=
  ⟨fun a b c h₁ h₂ => lexLe_trans a.data b.data c.data h₁ h₂⟩

/-! ## Clock and dates -/

/-- `time::OffsetDateTime` as the code uses it: `today()` always yields the
current day's midnight, so `ts` is the unix timestamp of midnight of the
carried calendar date (modelled for dates at or after the epoch, where the
`as usize` cast of `unix_timestamp()` is the identity). The calendar fields
feed filename generation. -/
structure OffsetDateTime where
  ts : Nat
  year : Nat
  month : Nat
  day : Nat
deriving DecidableEq

/-- Midnight unix timestamp of day number `d` (days since the epoch):
`Duration::days(1)` is 86400 seconds. -/
def dayTs (d : Nat) : Nat := 86400 * d

/-! ## Filename helpers -/

/-- Rust's `{:0w}` format specifier: decimal digits of `n`, left-padded with
zeros to width `w` (never truncated). -/
def padZeros (w n : Nat) : String :=
  let s := Nat.repr n
  String.mk (List.replicate (w - s.length) '0' ++ s.data)

/-- `create_daily_log_filename`: builds `{filename_prefix}-{yyyymmdd}.log`
via `format!("{}-{:04}{:02}{:02}.log", ...)`. -/
def create_daily_log_filename (p : String) (date : OffsetDateTime) : String :=
  p ++ "-" ++ padZeros 4 date.year ++ padZeros 2 date.month ++
    padZeros 2 date.day ++ ".log"

/-- `create_daily_log_path`: `directory.join(filename)` rendered as a string
(modelled as concatenation with the path separator). -/
def create_daily_log_path (directory filename : String) : String :=
  directory ++ "/" ++ filename

/-! ## The log-file name filter -/

/-- The regex `^{prefix}-\d{8}.log$` built by `is_log_file`, evaluated on a
filename's characters. The pattern is anchored at both ends; the source does
NOT escape the dot before `log`, so that position is the regex any-character
metacharacter (which matches every character except a newline). `\d` is
modelled as an ASCII decimal digit. The interpolated prefix is taken
literally, which is faithful for prefixes containing no regex
metacharacters (such as every prefix appearing in the claims). -/
def log_file_regex_accepts (p : String) (fl : List Char) : Bool :=
  fl.take (p.data.length + 1) == p.data ++ ['-'] &&
  ((fl.drop (p.data.length + 1)).take 8).length == 8 &&
  ((fl.drop (p.data.length + 1)).take 8).all Char.isDigit &&
  (match (fl.drop (p.data.length + 1)).drop 8 with
   | c :: t => c != '\n' && t == ['l', 'o', 'g']
   | [] => false)

/-- `is_log_file(filename, prefix)`: returns the filename when it matches
the pattern, `None` otherwise. -/
def is_log_file (filename : String) (p : String) : Option String :=
  if log_file_regex_accepts p filename.data then some filename else none

/-- Modelled from the spec: the naming pattern `^{prefix}-\d{8}\.log$` as
the spec states it in section 4.3 — with an ESCAPED, literal dot before
`log` ("eight decimal digits between the literal prefix-dash and a literal
`.log` suffix"). Kept separate from `is_log_file`, which embeds the
source's unescaped pattern, so the two can be compared. -/
def spec_log_pattern (filename : String) (p : String) : Bool :=
  filename.data.take (p.data.length + 1) == p.data ++ ['-'] &&
  ((filename.data.drop (p.data.length + 1)).take 8).length == 8 &&
  ((filename.data.drop (p.data.length + 1)).take 8).all Char.isDigit &&
  (filename.data.drop (p.data.length + 1)).drop 8 == ['.', 'l', 'o', 'g']

/-! ## The appender state -/

/-- `Inner`: the shared state of `DailyRollingFileAppender`. `next_date` is
the `AtomicUsize` holding the unix timestamp at which the next rotation is
due. -/
structure Inner where
  next_date : Nat
  max_count : Nat
  directory : String
  filename_prefix : String
deriving DecidableEq

/-- `Inner::should_rollover`: loads `next_date` and compares it with
`today().unix_timestamp()`; returns `Some(next_date)` when
`next_date <= today`, `None` otherwise. The clock read is the explicit
`todayTs` argument. -/
def should_rollover (next_date todayTs : Nat) : Option Nat :=
  if next_date ≤ todayTs then some next_date else none

/-- `Inner::advance_date(today, current)`: compare-and-swap of `next_date`
from `current` to `today.unix_timestamp()`. On the single-threaded state the
CAS succeeds exactly when the stored value equals `current`; the result is
the new stored value paired with the success flag. Note that the value
stored on success is TODAY's own timestamp, not the following day's. -/
def advance_date (next_date todayTs current : Nat) : Nat × Bool :=
  if next_date = current then (todayTs, true) else (next_date, false)

/-! ## Filesystem oracle and writer creation -/

/-- Outcomes of the filesystem calls made by one `create_writer` call:
whether the first append-mode open succeeds, whether the path has a parent,
and whether `create_dir_all` and the retry open succeed. -/
structure FsOutcome where
  firstOpenOk : Bool
  hasParent : Bool
  mkdirOk : Bool
  secondOpenOk : Bool
deriving DecidableEq

/-- `create_writer(directory, filename_prefix, date)`: opens (append/create)
the daily log path; on failure it creates the parent directories and retries
once. The opened `File` is identified by its path; `Except.error` carries
the failing call's message. -/
def create_writer (directory p : String) (date : OffsetDateTime)
    (o : FsOutcome) : Except String String :=
  let path := create_daily_log_path directory (create_daily_log_filename p date)
  if o.firstOpenOk then Except.ok path
  else if o.hasParent then
    if o.mkdirOk then
      if o.secondOpenOk then Except.ok path else Except.error "open failed"
    else Except.error "create_dir_all failed"
  else Except.error "open failed"

/-- `Inner::new(today, max_count, directory, filename_prefix)`: stores
`next_date = (today + Duration::days(1)).unix_timestamp()`, decodes the
prefix (`to_str().unwrap()` — `none` input models a non-UTF-8 path and the
resulting panic), and creates the first writer
(`.expect("failed to create appender")` — an open failure panics). A panic
is `Option.none`; on success the pair is the state and the opened file. -/
def Inner.new (today : OffsetDateTime) (mc : Nat) (directory : String)
    (prefixUtf8 : Option String) (o : FsOutcome) : Option (Inner × String) :=
  match prefixUtf8 with
  | none => none
  | some p =>
    match create_writer directory p today o with
    | Except.error _ => none
    | Except.ok f => some (⟨today.ts + 86400, mc, directory, p⟩, f)

/-! ## The swap: `refresh_writer` -/

/-- Result of one `Inner::refresh_writer` call. `installed` is the `File`
held behind the lock after the call; `retention_ran` records whether the
call reached `self.remove_old_files()` (whose filesystem effect is modelled
separately by `remove_old_files` below); `reported` collects the messages
sent to the process error channel (`eprintln!`), in order. -/
structure RefreshOut (F E : Type) where
  installed : F
  retention_ran : Bool
  reported : List E

/-- `Inner::refresh_writer(today, file)`: flushes the previous writer
(failure only reported), opens the new period's file (`create_writer`,
outcome given by `openR`); on success the new file is installed in place of
the old one, on failure the error is reported and the previous file stays
installed. Afterwards — unconditionally — `remove_old_files()` runs. -/
def refresh_writer {F E : Type} (oldFile : F) (flushR : Except E Unit)
    (openR : Except E F) : RefreshOut F E :=
  let rep0 : List E := match flushR with
    | Except.ok _ => []
    | Except.error e => [e]
  match openR with
  | Except.ok newFile => ⟨newFile, true, rep0⟩
  | Except.error e => ⟨oldFile, true, rep0 ++ [e]⟩

/-! ## The public write / make_writer surface -/

/-- Result of one `<DailyRollingFileAppender as io::Write>::write` call. -/
structure WriteOut (F E : Type) where
  result : Except E Nat
  next_date : Nat
  installed : F
  retention_ran : Bool
  reported : List E

/-- The `io::Write::write` implementation: checks `should_rollover`; when it
fires, runs `advance_date` (the CAS succeeds — with `&mut` access no other
thread can interleave, which the code's `debug_assert!` records) and then
`refresh_writer`; finally forwards the buffer to the installed file.
`writeOn f` is the OS outcome of `File::write` on file `f`. -/
def write_call {F E : Type} (next_date nowTs : Nat) (oldFile : F)
    (flushR : Except E Unit) (openR : Except E F)
    (writeOn : F → Except E Nat) : WriteOut F E :=
  match should_rollover next_date nowTs with
  | some current =>
    let adv := advance_date next_date nowTs current
    let r := refresh_writer oldFile flushR openR
    ⟨writeOn r.installed, adv.1, r.installed, r.retention_ran, r.reported⟩
  | none => ⟨writeOn oldFile, next_date, oldFile, false, []⟩

/-- Result of one `MakeWriter::make_writer` call: the returned
`RollingWriter` handle is the read-locked view of `installed`. -/
structure MakeWriterOut (F E : Type) where
  next_date : Nat
  installed : F
  retention_ran : Bool
  reported : List E

/-- The `MakeWriter::make_writer` implementation: checks `should_rollover`;
when it fires, refreshes the writer only if this caller's `advance_date`
CAS succeeded. -/
def make_writer_call {F E : Type} (next_date nowTs : Nat) (oldFile : F)
    (flushR : Except E Unit) (openR : Except E F) : MakeWriterOut F E :=
  match should_rollover next_date nowTs with
  | some current =>
    let adv := advance_date next_date nowTs current
    if adv.2 then
      let r := refresh_writer oldFile flushR openR
      ⟨adv.1, r.installed, r.retention_ran, r.reported⟩
    else ⟨adv.1, oldFile, false, []⟩
  | none => ⟨next_date, oldFile, false, []⟩

/-! ## Retention: `remove_old_files` -/

/-- `usize::MAX + 1`. -/
def USIZE : Nat := 2 ^ 64

/-- Rust release-mode `usize` subtraction `a - b`: wraps modulo `2 ^ 64`.
(Debug builds panic on the underflowing case instead; every underflow below
feeds an index that then exceeds the vector length, so both builds panic at
the same inputs and the embedding maps them to `none`.) -/
def wsub (a b : Nat) : Nat := (a % USIZE + (USIZE - b % USIZE)) % USIZE

/-- The `targets` vector of `remove_old_files`: the names in the directory
listing that `is_log_file` accepts, in listing order (per-entry read errors
are already dropped from `dir`). -/
def matchingLogFiles (p : String) (dir : List String) : List String :=
  dir.filterMap (fun n => is_log_file n p)

/-- `Inner::remove_old_files` on a successfully listed directory `dir`:
filters the entry names through `is_log_file`; when
`max_count < targets.len() - 1` (wrapping `usize` subtraction), sorts the
names ascending and deletes the slice
`targets[..targets.len() - (max_count + 1)]`. Returns `some deleted` — the
names whose deletion is attempted, oldest first (individual
`remove_file` failures are only reported and do not stop the loop) — or
`none` when the call panics (empty `targets` underflows the subtraction:
debug builds panic there, release builds wrap and then panic slicing
`targets[..huge]`). -/
def remove_old_files (max_count : Nat) (p : String) (dir : List String) :
    Option (List String) :=
  let targets := matchingLogFiles p dir
  if max_count % USIZE < wsub targets.length 1 then
    let sorted := List.insertionSort nameLe targets
    let k := wsub targets.length (max_count + 1)
    if k ≤ sorted.length then some (sorted.take k) else none
  else some []

/-! ## Helper lemmas -/

theorem is_log_file_eq {n p m : String} (h : is_log_file n p = some m) :
    m = n := by
  unfold is_log_file at h
  split at h
  · exact (Option.some.inj h).symm
  · cases h

theorem matchingLogFiles_eq_filter (p : String) (dir : List String) :
    matchingLogFiles p dir =
      dir.filter (fun n => (is_log_file n p).isSome) := by
  induction dir with
  | nil => rfl
  | cons n ns ih =>
    simp only [matchingLogFiles] at ih ⊢
    cases hm : is_log_file n p with
    | none => simpa [List.filterMap_cons, List.filter_cons, hm] using ih
    | some m =>
      have hmn : m = n := is_log_file_eq hm
      subst hmn
      simpa [List.filterMap_cons, List.filter_cons, hm] using ih

theorem matchingLogFiles_nodup (p : String) {dir : List String}
    (h : dir.Nodup) : (matchingLogFiles p dir).Nodup := by
  rw [matchingLogFiles_eq_filter]
  exact h.filter _

theorem create_writer_ok {directory p : String} {date : OffsetDateTime}
    {o : FsOutcome} {f : String}
    (h : create_writer directory p date o = Except.ok f) :
    f = create_daily_log_path directory (create_daily_log_filename p date) := by
  unfold create_writer at h
  split at h
  · exact (Except.ok.inj h).symm
  · split at h
    · split at h
      · split at h
        · exact (Except.ok.inj h).symm
        · cases h
      · cases h
    · cases h

/-! ## C6 — the rollover comparison is strict -/

/-- C6: on a state constructed by `Inner::new` on day `D`, `should_rollover`
called on day `T` returns the stored boundary (day `D + 1`'s timestamp)
exactly when the stored period `D` is strictly earlier than `T`; it returns
nothing when `T = D` (same day as construction) and nothing when the clock
moved backward (`T < D`): the comparison is strict, never mere
inequality. -/
theorem should_rollover_strict_comparison (D T mc y mo dd : Nat)
    (directory p f : String) (o : FsOutcome) (st : Inner)
    (h : Inner.new ⟨dayTs D, y, mo, dd⟩ mc directory (some p) o = some (st, f)) :
    should_rollover st.next_date (dayTs T) =
      if D < T then some (dayTs (D + 1)) else none := by
  have hnd : st.next_date = dayTs D + 86400 := by
    simp only [Inner.new] at h
    cases hcw : create_writer directory p ⟨dayTs D, y, mo, dd⟩ o with
    | error e =>
      simp only [hcw] at h
      cases h
    | ok g =>
      simp only [hcw, Option.some.injEq, Prod.mk.injEq] at h
      obtain ⟨hst, hf⟩ := h
      rw [← hst]
  rw [hnd]
  unfold should_rollover dayTs
  by_cases hlt : D < T
  · rw [if_pos (by omega : 86400 * D + 86400 ≤ 86400 * T), if_pos hlt]
    exact congrArg some (by omega)
  · rw [if_neg (by omega : ¬ 86400 * D + 86400 ≤ 86400 * T), if_neg hlt]

/-- Witness for C6: concrete instantiation on construction day 10,
call day 11. -/
theorem should_rollover_strict_comparison_witness :
    should_rollover
        (Inner.next_date ⟨dayTs 10 + 86400, 3, "logs", "foo"⟩) (dayTs 11) =
      if 10 < 11 then some (dayTs (10 + 1)) else none :=
  should_rollover_strict_comparison 10 11 3 2025 10 12 "logs" "foo"
    "logs/foo-20251012.log" ⟨true, true, true, true⟩
    ⟨dayTs 10 + 86400, 3, "logs", "foo"⟩ (by decide)

/-! ## C8 — the spec's pattern-matching examples -/

/-- C8: for prefix `foo`, `is_log_file` accepts exactly the spec's examples:
`foo-00000000.log` and `foo-20220527.log` are classified as log files;
`foo.log`, `20220527.log`, `foo-2022052a.log` and `foo-20220527.txt` are
not. -/
theorem is_log_file_examples :
    is_log_file "foo-00000000.log" "foo" = some "foo-00000000.log" ∧
    is_log_file "foo-20220527.log" "foo" = some "foo-20220527.log" ∧
    is_log_file "foo.log" "foo" = none ∧
    is_log_file "20220527.log" "foo" = none ∧
    is_log_file "foo-2022052a.log" "foo" = none ∧
    is_log_file "foo-20220527.txt" "foo" = none := by decide

/-! ## C1 — rotation is NOT once-per-boundary (code bug) -/

/-- C1 (the code contradicts the claim): an appender constructed on day 0
stores `next_date = dayTs 1`. The first `write` on day 1 rolls over — but
`advance_date` stores `today().unix_timestamp()` itself (`dayTs 1`), not the
next boundary `dayTs 2`, so EVERY later `write` or `make_writer` call on
day 1 again finds `should_rollover = Some`, wins the (trivial) CAS, and
re-runs `refresh_writer` — another file open, install and retention pass —
though it keeps appending to the same path. The claim's "every subsequent
call finds `should_rollover` returning `None` and performs no further file
open or retention pass" fails at the second call. -/
theorem second_call_same_day_rotates_again :
    (write_call (dayTs 0 + 86400) (dayTs 1) "foo-19700101.log"
        (Except.ok () : Except String Unit) (Except.ok "foo-19700102.log")
        (fun f => Except.ok (String.length f))).next_date = dayTs 1 ∧
    (write_call (dayTs 0 + 86400) (dayTs 1) "foo-19700101.log"
        (Except.ok () : Except String Unit) (Except.ok "foo-19700102.log")
        (fun f => Except.ok (String.length f))).retention_ran = true ∧
    should_rollover (dayTs 1) (dayTs 1) = some (dayTs 1) ∧
    (write_call (dayTs 1) (dayTs 1) "foo-19700102.log"
        (Except.ok () : Except String Unit) (Except.ok "foo-19700102.log")
        (fun f => Except.ok (String.length f))).retention_ran = true ∧
    (write_call (dayTs 1) (dayTs 1) "foo-19700102.log"
        (Except.ok () : Except String Unit) (Except.ok "foo-19700102.log")
        (fun f => Except.ok (String.length f))).installed = "foo-19700102.log" ∧
    (make_writer_call (dayTs 1) (dayTs 1) "foo-19700102.log"
        (Except.ok () : Except String Unit)
        (Except.ok "foo-19700102.log")).retention_ran = true := by decide

/-! ## C4 — an open failure during the swap is never fatal to the write -/

/-- C4: when a rollover fires and opening the new period's file fails, the
previous file stays installed, the triggering `write` call proceeds against
that stale file and returns that write's own result, and the open error is
reported to the process error channel — it is never surfaced as the write
call's error. -/
theorem open_failure_keeps_previous_file {F E : Type} (next_date nowTs : Nat)
    (oldFile : F) (flushR : Except E Unit) (e : E)
    (writeOn : F → Except E Nat) (hroll : next_date ≤ nowTs) :
    (write_call next_date nowTs oldFile flushR (Except.error e)
        writeOn).result = writeOn oldFile ∧
    (write_call next_date nowTs oldFile flushR (Except.error e)
        writeOn).installed = oldFile ∧
    e ∈ (write_call next_date nowTs oldFile flushR (Except.error e)
        writeOn).reported := by
  unfold write_call should_rollover
  rw [if_pos hroll]
  cases flushR with
  | ok u => exact ⟨rfl, rfl, by simp [refresh_writer]⟩
  | error e2 => exact ⟨rfl, rfl, by simp [refresh_writer]⟩

/-- Witness for C4: a rollover on a concrete day with a "disk full" open
failure writes to the stale file and reports the failure. -/
theorem open_failure_keeps_previous_file_witness :
    (write_call 86400 86400 "old.log" (Except.ok ()) (Except.error "disk full")
        (fun f => Except.ok (String.length f))).result =
      Except.ok (String.length "old.log") ∧
    (write_call 86400 86400 "old.log" (Except.ok ()) (Except.error "disk full")
        (fun f => Except.ok (String.length f))).installed = "old.log" ∧
    "disk full" ∈ (write_call 86400 86400 "old.log" (Except.ok ())
        (Except.error "disk full")
        (fun f => Except.ok (String.length f))).reported :=
  open_failure_keeps_previous_file 86400 86400 "old.log" (Except.ok ())
    "disk full" (fun f => Except.ok (String.length f)) (by decide)

/-! ## C5 — when the retention pass runs -/

/-- C5 (amended): `remove_old_files` is invoked on every `refresh_writer`
call — i.e. on every swap, whether or not the file-open succeeded — and a
`write` call runs a retention pass exactly when the rollover check fires
(never on a non-rotating write; `flush` forwards to the file and performs
none). The original claim's "never after a failed open" part is refuted by
`retention_runs_after_failed_open`. -/
theorem retention_runs_on_every_swap {F E : Type} (next_date nowTs : Nat)
    (oldFile : F) (flushR : Except E Unit) (openR : Except E F)
    (writeOn : F → Except E Nat) :
    (refresh_writer oldFile flushR openR).retention_ran = true ∧
    (write_call next_date nowTs oldFile flushR openR writeOn).retention_ran
      = decide (next_date ≤ nowTs) := by
  constructor
  · cases openR <;> cases flushR <;> rfl
  · unfold write_call should_rollover
    by_cases h : next_date ≤ nowTs
    · rw [if_pos h]
      simp only [decide_eq_true h]
      cases openR <;> cases flushR <;> rfl
    · rw [if_neg h]
      simp [h]

/-- C5 (counterexample): a swap whose file-open failed still reaches
`self.remove_old_files()` — the call sits after the `match` on the open
result, outside its failure arm — contradicting "a swap whose file-open
failed performs no retention pass". -/
theorem retention_runs_after_failed_open :
    (refresh_writer "old.log" (Except.ok () : Except String Unit)
        (Except.error "disk full")).retention_ran = true := rfl

/-! ## C7 — deletions are an initial segment of the sorted matching names -/

/-- C7: whenever `remove_old_files` deletes files (it returns `some deleted`,
on a directory listing with distinct entry names, as a directory always
yields), the deleted names are an initial segment of the ascending
lexicographic ordering of all matching names — the oldest, since the
fixed-width `YYYYMMDD` date makes lexicographic order chronological — so
every retained matching name is strictly greater than every deleted
name. -/
theorem remove_old_files_deletes_initial_segment (mc : Nat) (p : String)
    (dir deleted : List String) (hnd : dir.Nodup)
    (h : remove_old_files mc p dir = some deleted) :
    List.IsPrefix deleted
        (List.insertionSort nameLe (matchingLogFiles p dir)) ∧
    ∀ d ∈ deleted, ∀ r ∈ matchingLogFiles p dir, r ∉ deleted → nameLt d r := by
  simp only [remove_old_files] at h
  split at h
  · split at h
    · obtain rfl := (Option.some.inj h).symm
      set M := matchingLogFiles p dir with hM
      set S := List.insertionSort nameLe M with hS
      set K := wsub M.length (mc + 1) with hK
      refine ⟨List.take_prefix _ _, ?_⟩
      have hsorted : List.Pairwise nameLe S := List.sorted_insertionSort nameLe M
      have hperm : List.Perm S M := List.perm_insertionSort nameLe M
      have hmn : M.Nodup := matchingLogFiles_nodup p hnd
      have hsn : List.Pairwise (fun a b => a ≠ b) S := hperm.symm.nodup hmn
      have hpair : List.Pairwise nameLt S :=
        (List.Pairwise.and hsorted hsn).imp
          (fun hab => nameLt_of_nameLe_of_ne hab.1 hab.2)
      intro d hd r hr hrd
      have hrS : r ∈ S := hperm.mem_iff.mpr hr
      have hsplit : S.take K ++ S.drop K = S := List.take_append_drop K S
      have hpair2 : List.Pairwise nameLt (S.take K ++ S.drop K) := by
        rw [hsplit]
        exact hpair
      have hcross := (List.pairwise_append.mp hpair2).2.2
      have hrdrop : r ∈ S.drop K := by
        have hin : r ∈ S.take K ++ S.drop K := by
          rw [hsplit]
          exact hrS
        rcases List.mem_append.mp hin with hc | hc
        · exact absurd hc hrd
        · exact hc
      exact hcross d hd r hrdrop
    · cases h
  · obtain rfl := (Option.some.inj h).symm
    exact ⟨List.nil_prefix, fun d hd => absurd hd (List.not_mem_nil d)⟩

/-- The directory listing of C7's witness: three matching files in
scrambled listing order. -/
def c7_dir : List String :=
  ["foo-20250103.log", "foo-20250101.log", "foo-20250102.log"]

/-- Witness for C7: with `max_count = 0` on `c7_dir`, the two oldest names
are deleted; they form a prefix of the sorted matching names, and the
retained `foo-20250103.log` is strictly greater than the deleted
`foo-20250101.log`. -/
theorem remove_old_files_deletes_initial_segment_witness :
    List.IsPrefix ["foo-20250101.log", "foo-20250102.log"]
      (List.insertionSort nameLe (matchingLogFiles "foo" c7_dir)) ∧
    nameLt "foo-20250101.log" "foo-20250103.log" := by
  have h := remove_old_files_deletes_initial_segment 0 "foo" c7_dir
    ["foo-20250101.log", "foo-20250102.log"] (by decide) (by decide)
  exact ⟨h.1, h.2 "foo-20250101.log" (by decide) "foo-20250103.log"
    (by decide) (by decide)⟩

/-! ## C2 — how many files a retention pass leaves -/

/-- The directory listing of C2's scenario: today's (2025-10-12) just-opened
file, the ten older matching files `today-1 .. today-10`, and four
non-matching names (the unrelated files of the source's own retention
test). -/
def c2_dir : List String :=
  ["foo-20251012.log", "bar.txt", "foo-20251011.log", "foo-20251010.log",
   "bar-20220527.log", "foo-20251009.log", "foo-20251008.log",
   "foo-20251007.log", "foo-20251006.log", "foo-20251005.log",
   "foo-20251004.log", "foo-20251003.log", "foo-20251002.log",
   "foo-00000101.txt", "foo-0000010a.txt"]

/-- The names `remove_old_files` deletes in C2's scenario: the seven oldest
matching files, `today-10 .. today-4`. -/
def c2_deleted : List String :=
  ["foo-20251002.log", "foo-20251003.log", "foo-20251004.log",
   "foo-20251005.log", "foo-20251006.log", "foo-20251007.log",
   "foo-20251008.log"]

/-- C2 (counterexample): with `max_count = 3` on `c2_dir`, the code deletes
only the seven oldest matching files — `today-3` (`foo-20251009.log`) is NOT
deleted, though the claim says the pass "deletes today−3 and every older
matching file", and four (not 3) matching files remain. The condition
`max_count < targets.len() - 1` and the slice bound
`targets.len() - (max_count + 1)` retain `max_count + 1` matching names. -/
theorem retention_keeps_today_minus_three :
    remove_old_files 3 "foo" c2_dir = some c2_deleted ∧
    "foo-20251009.log" ∉ c2_deleted ∧
    ((matchingLogFiles "foo" c2_dir).filter
      (fun n => !c2_deleted.contains n)).length = 4 := by decide

/-- Counting helper: filtering a duplicate-free `d ++ r` by "not contained
in `d`" keeps exactly `r`. -/
theorem length_filter_not_mem_append (d r : List String)
    (hnd : (d ++ r).Nodup) :
    ((d ++ r).filter (fun n => !d.contains n)).length = r.length := by
  have hdisj := (List.nodup_append.mp hnd).2.2
  rw [List.filter_append]
  have h1 : d.filter (fun n => !d.contains n) = [] := by
    rw [List.filter_eq_nil_iff]
    intro a ha
    simp [ha]
  have h2 : r.filter (fun n => !d.contains n) = r := by
    rw [List.filter_eq_self]
    intro a ha
    have hnotin : a ∉ d := fun hin => hdisj hin ha
    simp [hnotin]
  rw [h1, h2, List.nil_append]

/-- C2 (amended): after EVERY successful retention pass — any `max_count`
and any duplicate-free directory listing, with the match count and
`max_count + 1` in `usize` range as they physically are — the number of
matching files left in the directory (those matching names the pass did not
delete) is at most `max_count + 1`: `max_count` counts the retained files
EXCLUDING the currently-open one, as the constructor's documentation
states. The witness instantiates the claim's concrete scenario: today's
file plus ten older matching files and `max_count = 3` leave exactly the 4
most recent matching files (today .. today−3), today−4 and older deleted,
non-matching names untouched. -/
theorem retention_leaves_at_most_max_count_plus_one (mc : Nat) (p : String)
    (dir deleted : List String) (hnd : dir.Nodup) (hmc : mc + 1 < USIZE)
    (hlen : (matchingLogFiles p dir).length < USIZE)
    (h : remove_old_files mc p dir = some deleted) :
    ((matchingLogFiles p dir).filter
        (fun n => !deleted.contains n)).length ≤ mc + 1 := by
  simp only [remove_old_files] at h
  split at h
  · split at h
    · obtain rfl := (Option.some.inj h).symm
      set M := matchingLogFiles p dir with hM
      set S := List.insertionSort nameLe M with hS
      set K := wsub M.length (mc + 1) with hK
      have hperm : List.Perm S M := by
        rw [hS]
        exact List.perm_insertionSort nameLe M
      have hmn : M.Nodup := by
        rw [hM]
        exact matchingLogFiles_nodup p hnd
      have hsn : S.Nodup := hperm.symm.nodup hmn
      have hSlen : S.length = M.length := hperm.length_eq
      have hsplit : S.take K ++ S.drop K = S := List.take_append_drop K S
      have hnd2 : (S.take K ++ S.drop K).Nodup := by
        rw [hsplit]
        exact hsn
      have hlen2 := length_filter_not_mem_append (S.take K) (S.drop K) hnd2
      rw [hsplit] at hlen2
      have hfp : (M.filter (fun n => !(S.take K).contains n)).length
          = (S.filter (fun n => !(S.take K).contains n)).length :=
        (hperm.symm.filter _).length_eq
      rw [hfp, hlen2, List.length_drop, hSlen]
      rw [hSlen] at *
      unfold wsub USIZE at hK
      unfold USIZE at hmc hlen
      omega
    · cases h
  · obtain rfl := (Option.some.inj h).symm
    rename_i hc
    have hle : (matchingLogFiles p dir).length ≤ mc + 1 := by
      unfold wsub USIZE at hc
      unfold USIZE at hmc hlen
      omega
    calc ((matchingLogFiles p dir).filter
            (fun n => !(List.contains [] n))).length
        ≤ (matchingLogFiles p dir).length := List.length_filter_le _ _
      _ ≤ mc + 1 := hle

/-- Witness for C2's amended claim: the concrete scenario of the claim —
`max_count = 3`, today's file, ten older matching files, four non-matching
names — applied through the general bound, together with the exact
remaining set: the 4 most recent matching files stay, today−4 and older are
deleted, and non-matching names are untouched. -/
theorem retention_leaves_at_most_max_count_plus_one_witness :
    ((matchingLogFiles "foo" c2_dir).filter
        (fun n => !c2_deleted.contains n)).length ≤ 3 + 1 ∧
    remove_old_files 3 "foo" c2_dir = some c2_deleted ∧
    (matchingLogFiles "foo" c2_dir).filter (fun n => !c2_deleted.contains n) =
      ["foo-20251012.log", "foo-20251011.log", "foo-20251010.log",
       "foo-20251009.log"] ∧
    c2_dir.filter (fun n => !(is_log_file n "foo").isSome) =
      ["bar.txt", "bar-20220527.log", "foo-00000101.txt",
       "foo-0000010a.txt"] :=
  ⟨retention_leaves_at_most_max_count_plus_one 3 "foo" c2_dir c2_deleted
      (by decide) (by decide) (by decide) (by decide),
    by decide, by decide, by decide⟩

/-! ## C3 — what the deletion filter can delete (code bug) -/

/-- The directory listing of C3's scenario: three well-formed dated logs and
one file whose name has `x` where the claimed pattern demands a literal
dot. -/
def c3_dir : List String :=
  ["foo-20250101.log", "foo-00000000xlog", "foo-20250102.log",
   "foo-20250103.log"]

/-- C3 (the code contradicts the claim): `foo-00000000xlog` does NOT match
the claimed pattern `^foo-\d{8}\.log$` — there is no literal `.log` suffix —
yet with `max_count = 1` on `c3_dir` the code deletes it: the source builds
the filter regex as `format!("^{}-\d{{8}}.log$", prefix)`, leaving the dot
unescaped, so any character may stand in the dot's position. -/
theorem unescaped_dot_deletes_foreign_file :
    remove_old_files 1 "foo" c3_dir =
      some ["foo-00000000xlog", "foo-20250101.log"] ∧
    spec_log_pattern "foo-00000000xlog" "foo" = false ∧
    is_log_file "foo-00000000xlog" "foo" = some "foo-00000000xlog" := by decide

/-! ## C9 — totality of the retention pass (refuted at zero matches) -/

/-- C9 (counterexample): on a directory with NO matching names (here a
single unrelated file), `remove_old_files` does not return normally: the
`targets.len() - 1` computation underflows `usize` (debug builds panic
there; release builds wrap to `2^64 - 1`, satisfy the comparison, and then
panic slicing `targets[..2^64 - 4]`), which the model returns as `none`. -/
theorem remove_old_files_panics_on_zero_matches :
    remove_old_files 3 "foo" ["bar.txt"] = none := by decide

/-- C9 (amended): the retention pass is total and attempts no deletion
whenever at least one and at most `max_count + 1` names match — but not at
zero matches, where the length-minus-one computation underflows. -/
theorem remove_old_files_no_delete_when_underfull (mc : Nat) (p : String)
    (dir : List String) (hmc : mc + 1 < USIZE)
    (h1 : 1 ≤ (matchingLogFiles p dir).length)
    (h2 : (matchingLogFiles p dir).length ≤ mc + 1) :
    remove_old_files mc p dir = some [] := by
  have hcond : ¬ (mc % USIZE < wsub (matchingLogFiles p dir).length 1) := by
    unfold wsub
    unfold USIZE at *
    omega
  simp only [remove_old_files]
  rw [if_neg hcond]

/-- Witness for C9's amended theorem: one matching file, `max_count = 3` —
the pass returns normally and deletes nothing. -/
theorem remove_old_files_no_delete_when_underfull_witness :
    remove_old_files 3 "foo" ["foo-20251012.log", "bar.txt"] = some [] :=
  remove_old_files_no_delete_when_underfull 3 "foo"
    ["foo-20251012.log", "bar.txt"] (by decide) (by decide) (by decide)

/-! ## C10 — the constructor never returns an error value -/

/-- C10: `DailyRollingFileAppender::new` (via `Inner::new`) never returns an
error value: it panics (`none`) exactly when the prefix is not valid UTF-8
(`to_str().unwrap()`) or when the initial file cannot be created
(`.expect("failed to create appender")`, after `create_writer`'s own
create-missing-parent-directories retry); otherwise it yields a state whose
stored next-rotation timestamp is the construction day's midnight plus one
day (86400 s) and whose opened writer is the current day's log path. -/
theorem new_panics_or_yields_today_file (today : OffsetDateTime) (mc : Nat)
    (directory p : String) (o : FsOutcome) :
    (Inner.new today mc directory none o = none) ∧
    (Inner.new today mc directory (some p) o = none ↔
      ∃ e, create_writer directory p today o = Except.error e) ∧
    (∀ st f, Inner.new today mc directory (some p) o = some (st, f) →
      st = ⟨today.ts + 86400, mc, directory, p⟩ ∧
      f = create_daily_log_path directory
            (create_daily_log_filename p today)) := by
  refine ⟨rfl, ?_, ?_⟩
  · constructor
    · intro h
      cases hcw : create_writer directory p today o with
      | error e => exact ⟨e, rfl⟩
      | ok g =>
        simp only [Inner.new, hcw] at h
        cases h
    · rintro ⟨e, he⟩
      simp only [Inner.new, he]
  · intro st f h
    cases hcw : create_writer directory p today o with
    | error e =>
      simp only [Inner.new, hcw] at h
      cases h
    | ok g =>
      simp only [Inner.new, hcw, Option.some.injEq, Prod.mk.injEq] at h
      obtain ⟨hst, hf⟩ := h
      refine ⟨hst.symm, ?_⟩
      rw [← hf]
      exact create_writer_ok hcw

/-- Witness for C10: constructing on 2025-10-12 (day 20373 since the epoch)
with an all-successful filesystem yields the stored boundary one day later
and today's log path `logs/foo-20251012.log`. -/
theorem new_panics_or_yields_today_file_witness :
    (⟨dayTs 20373 + 86400, 3, "logs", "foo"⟩ : Inner) =
      ⟨OffsetDateTime.ts ⟨dayTs 20373, 2025, 10, 12⟩ + 86400, 3, "logs",
        "foo"⟩ ∧
    "logs/foo-20251012.log" = create_daily_log_path "logs"
      (create_daily_log_filename "foo" ⟨dayTs 20373, 2025, 10, 12⟩) :=
  (new_panics_or_yields_today_file ⟨dayTs 20373, 2025, 10, 12⟩ 3 "logs" "foo"
    ⟨true, true, true, true⟩).2.2 ⟨dayTs 20373 + 86400, 3, "logs", "foo"⟩
    "logs/foo-20251012.log" (by decide)

end Appenders
